import Mathlib

/-!
Shallow embedding of the grading-tree flattener, the case/batch renderer and
the incremental progress tracker of the dmoj-submit client
(src/api.rs data model, src/subcommands.rs logic), together with theorems
settling the specification claims about them.

Modelling conventions:
* Rust `f64` fields (time, memory, points, total) are modelled as `ℚ`;
  fixed-precision formatting (`{:.3}` etc.) is modelled by `fmtFixed`,
  which rounds half-to-even like Rust's float formatter.
* Rust `i32` counters are modelled as `Int`; the counters here only ever
  grow by one per list element, so wrap-around is unreachable.
* The `console` crate's styling is modelled by `StyledText`, rendered with
  ANSI escape codes as when colors are enabled.
* A Rust panic (`Vec::split_off` out of bounds, `Option::unwrap` on `None`)
  is modelled by `Option.none`.
-/

/-- Mirrors `APISubmissionCase` from src/api.rs. -/
structure APISubmissionCase where
  type : String
  case_id : Int
  status : String
  time : ℚ
  memory : ℚ
  points : ℚ
  total : ℚ
deriving DecidableEq

/-- Mirrors `APISubmissionBatch` from src/api.rs. -/
structure APISubmissionBatch where
  type : String
  batch_id : Int
  cases : List APISubmissionCase
  points : ℚ
  total : ℚ
deriving DecidableEq

/-- Mirrors `APISubmissionCaseOrBatch` from src/api.rs. -/
inductive APISubmissionCaseOrBatch where
  | Case : APISubmissionCase → APISubmissionCaseOrBatch
  | Batch : APISubmissionBatch → APISubmissionCaseOrBatch
deriving DecidableEq

open APISubmissionCaseOrBatch

/-- Mirrors `FlattenedCasesItem` from src/subcommands.rs. -/
structure FlattenedCasesItem where
  is_batched_case : Bool
  num : Int
  item : APISubmissionCaseOrBatch
deriving DecidableEq

/-- The `zip(1..)` numbering of a batch's child cases inside `flatten_cases`,
with the next child number made explicit. -/
def flattenBatchCases : Int → List APISubmissionCase → List FlattenedCasesItem
  | _, [] => []
  | k, c :: cs => ⟨true, k, Case c⟩ :: flattenBatchCases (k + 1) cs

/-- The loop body of `flatten_cases` (src/subcommands.rs), with the running
`batch_num` counter made explicit. -/
def flattenCasesGo : Int → List APISubmissionCaseOrBatch → List FlattenedCasesItem
  | _, [] => []
  | n, Case c :: rest => ⟨false, n, Case c⟩ :: flattenCasesGo (n + 1) rest
  | n, Batch b :: rest =>
      ⟨false, n, Batch { b with cases := [] }⟩ ::
        (flattenBatchCases 1 b.cases ++ flattenCasesGo (n + 1) rest)

/-- Mirrors `flatten_cases` from src/subcommands.rs: the counter starts at 1. -/
def flattenCases (cases : List APISubmissionCaseOrBatch) : List FlattenedCasesItem :=
  flattenCasesGo 1 cases

/-- Colors used by the renderer (subset of the `console` crate's colors). -/
inductive StyleColor where
  | green
  | yellow
  | red
  | black
deriving DecidableEq

/-- ANSI base code of a foreground color, as emitted by the `console` crate. -/
def StyleColor.code : StyleColor → Nat
  | .green => 32
  | .yellow => 33
  | .red => 31
  | .black => 30

/-- Models a `console::StyledObject<String>`: text plus the styling applied. -/
structure StyledText where
  text : String
  fg : Option StyleColor := none
  isBright : Bool := false
  isBold : Bool := false
deriving DecidableEq

/-- Mirrors `console::style(s)`: no styling applied yet. -/
def style (s : String) : StyledText := { text := s }

/-- Mirrors `.green()` on a styled object. -/
def StyledText.green (t : StyledText) : StyledText := { t with fg := some .green }

/-- Mirrors `.yellow()` on a styled object. -/
def StyledText.yellow (t : StyledText) : StyledText := { t with fg := some .yellow }

/-- Mirrors `.red()` on a styled object. -/
def StyledText.red (t : StyledText) : StyledText := { t with fg := some .red }

/-- Mirrors `.black()` on a styled object. -/
def StyledText.black (t : StyledText) : StyledText := { t with fg := some .black }

/-- Mirrors `.bright()` on a styled object. -/
def StyledText.bright (t : StyledText) : StyledText := { t with isBright := true }

/-- Mirrors `.bold()` on a styled object. -/
def StyledText.bold (t : StyledText) : StyledText := { t with isBold := true }

/-- Renders a styled object to the terminal string, ANSI escapes included
(modelling the `console` crate's `Display` with colors enabled; bright
foreground colors add 60 to the base code). An unstyled object renders as
its bare text. -/
def StyledText.render (t : StyledText) : String :=
  if t.fg = none ∧ t.isBold = false then t.text
  else
    (if t.isBold then "\x1b[1m" else "")
      ++ (match t.fg with
          | some c => "\x1b[" ++ toString (c.code + if t.isBright then 60 else 0) ++ "m"
          | none => "")
      ++ t.text ++ "\x1b[0m"

/-- Mirrors Rust's `format!("{:<5}", s)` padding (for width `w`): pads the
right side with spaces when the string is shorter than `w` characters. -/
def padRightSpaces (w : Nat) (s : String) : String :=
  s ++ String.mk (List.replicate (w - s.length) ' ')

/-- Round `x * s` to the nearest integer, ties to even — the rounding Rust's
fixed-precision float formatting performs on the digit string. Works on the
numerator and (positive) denominator directly so it reduces in the kernel. -/
def roundScaledHalfToEven (x : ℚ) (s : ℕ) : ℤ :=
  let n := x.num * s
  let d := (x.den : ℤ)
  let f := n.fdiv d
  let r2 := 2 * n.fmod d
  if r2 < d then f
  else if d < r2 then f + 1
  else if f % 2 = 0 then f else f + 1

/-- Models Rust's `format!("{:.prec}", x)` fixed-precision decimal formatting
on our rational model of `f64`. -/
def fmtFixed (prec : Nat) (x : ℚ) : String :=
  let n := roundScaledHalfToEven x (10 ^ prec)
  let sign := if n < 0 then "-" else ""
  let m := n.natAbs
  if prec = 0 then sign ++ toString m
  else
    let ip := m / 10 ^ prec
    let fp := m % 10 ^ prec
    let fpStr := toString fp
    sign ++ toString ip ++ "." ++ String.mk (List.replicate (prec - fpStr.length) '0') ++ fpStr

/-- The status-coloring `match` inside `FlattenedCasesItem::gen_msg`
(src/subcommands.rs lines 72-83). The two guarded `"AC"` arms are exhaustive
over `ℚ` (`points == total` or not), so no fall-through is modelled. -/
def statusStyle (c : APISubmissionCase) : StyledText :=
  if c.status = "AC" then
    if c.points = c.total then (style "AC").green else ((style "AC").yellow).bright
  else if c.status = "WA" then ((style "WA").red).bright
  else if c.status = "TLE" then (style "TLE").black
  else if c.status = "SC" then (style "—").black
  else if c.status = "MLE" ∨ c.status = "OLE" ∨ c.status = "RTE" ∨ c.status = "IR" then
    (style c.status).red
  else style c.status

/-- Mirrors `FlattenedCasesItem::gen_msg` (src/subcommands.rs lines 59-107).
`format!("{} {}", a, b)` becomes `a ++ " " ++ b`, and each styled argument is
interpolated through `StyledText.render`. -/
def FlattenedCasesItem.genMsg (it : FlattenedCasesItem) : String :=
  match it.item with
  | Case c =>
    let paddedCaseNum := padRightSpaces 5 ("#" ++ toString it.num ++ ":")
    let title :=
      if it.is_batched_case then style ("  Case " ++ paddedCaseNum)
      else (style ("Test case " ++ paddedCaseNum)).bold
    let status := statusStyle c
    let timeAndMem :=
      "[" ++ fmtFixed 3 c.time ++ "s, " ++ fmtFixed 2 (c.memory / 1024) ++ " MB]"
    let points := "(" ++ fmtFixed 0 c.points ++ "/" ++ fmtFixed 0 c.total ++ ")"
    if c.status ≠ "SC" then
      if it.is_batched_case then
        title.render ++ " " ++ status.render ++ " " ++ timeAndMem
      else
        title.render ++ " " ++ status.render ++ " " ++ timeAndMem ++ " " ++ points
    else if it.is_batched_case then
      title.render ++ " " ++ status.render
    else
      title.render ++ " " ++ status.render ++ " " ++ points
  | Batch b =>
    let title := (style ("Batch #" ++ toString it.num)).bold
    let points := "(?/" ++ fmtFixed 0 b.total ++ " points)"
    title.render ++ " " ++ points

/-- Models the `Progress` tracker state (src/subcommands.rs): the flattened
items already emitted. The spinner is purely visual and carries no data. -/
structure Progress where
  cases : List FlattenedCasesItem
deriving DecidableEq

/-- Mirrors `Progress::new`: an empty tracker. -/
def Progress.new : Progress := ⟨[]⟩

/-- Mirrors `Progress::extend` (src/subcommands.rs lines 125-136). Returns the
new state together with the lines printed, in print order. `none` models the
`Vec::split_off` panic that fires when the tracker has already emitted more
items than the new snapshot flattens to. -/
def Progress.extend (p : Progress) (input : List APISubmissionCaseOrBatch) :
    Option (Progress × List String) :=
  let cs := flattenCases input
  if p.cases.length ≤ cs.length then
    let newCases := cs.drop p.cases.length
    some (⟨p.cases ++ newCases⟩, newCases.map FlattenedCasesItem.genMsg)
  else
    none

/-- Decides whether the second character list is an initial segment of the
first. -/
def charListHasPre : List Char → List Char → Bool
  | _, [] => true
  | [], _ :: _ => false
  | a :: as, b :: bs => a = b && charListHasPre as bs

/-- Decides whether `nee` occurs contiguously somewhere in the list. -/
def charListHasSub (nee : List Char) : List Char → Bool
  | [] => nee.isEmpty
  | c :: cs => charListHasPre (c :: cs) nee || charListHasSub nee cs

/-- Decides whether `sub` occurs contiguously in `s`. -/
def strContains (s sub : String) : Bool :=
  charListHasSub sub.data s.data

/-- The extension relation of the spec's monotonic-extension prefix law:
`Tx` is `T` with only additions — new top-level units appended, and/or new
cases appended to an existing trailing batch. -/
def ExtendsTo (T Tx : List APISubmissionCaseOrBatch) : Prop :=
  (∃ added, Tx = T ++ added) ∨
  (∃ pre b extra added,
      T = pre ++ [Batch b] ∧
      Tx = pre ++ (Batch { b with cases := b.cases ++ extra } :: added))

/-- A sample accepted case (status `AC`, 1/1 points, 0.1 s, 2048 KB). -/
def sampleCaseAC : APISubmissionCase := ⟨"case", 1, "AC", mkRat 1 10, 2048, 1, 1⟩

/-- A sample wrong-answer case (status `WA`, 0/1 points, 0.05 s, 1024 KB). -/
def sampleCaseWA : APISubmissionCase := ⟨"case", 2, "WA", mkRat 1 20, 1024, 0, 1⟩

/-- A sample short-circuited case (status `SC`). -/
def sampleCaseSC : APISubmissionCase := ⟨"case", 3, "SC", 0, 0, 0, 1⟩

/-- A sample batch worth 10 points holding the two sample cases. -/
def sampleBatch : APISubmissionBatch := ⟨"batch", 1, [sampleCaseAC, sampleCaseWA], 0, 10⟩

/-- The internal-error message printed for result `IE` (src/subcommands.rs
line 239), red-bright styled. -/
def internalErrorMsg : String :=
  (((style "An internal error occurred while grading, and the DMOJ administrators have been notified\nIn the meantime, try resubmitting in a few seconds.").red).bright).render

/-- Mirrors the outcome-summary printing of `submit` once grading finishes
(src/subcommands.rs lines 236-266): the `match result.as_str()` together with
the `Resources:` and `Final score:` lines of the catch-all arm. Returns the
printed lines; `none` models an `Option::unwrap` panic on a missing `time`
(non-`TLE` scoring results) or `memory` field. -/
def printOutcomeSummary (result : String) (time memory : Option ℚ)
    (casePoints caseTotal : ℚ) : Option (List String) :=
  if result = "IE" then some [internalErrorMsg]
  else if result = "CE" then some ["Compilation error"]
  else if result = "AB" then some ["Submission aborted!"]
  else
    match (if result = "TLE" then some "---" else time.map fun t => fmtFixed 3 t ++ "s"),
        memory with
    | some ts, some mem =>
        some [((style "Resources:").bold).render ++ " " ++ ts ++ ", "
                ++ fmtFixed 2 (mem / 1024) ++ " MB",
              ((style "Final score:").bold).render ++ " "
                ++ fmtFixed 0 casePoints ++ "/" ++ fmtFixed 0 caseTotal]
    | _, _ => none

lemma flattenBatchCases_append (xs ys : List APISubmissionCase) (k : ℤ) :
    flattenBatchCases k (xs ++ ys)
      = flattenBatchCases k xs ++ flattenBatchCases (k + (xs.length : ℤ)) ys := by
  induction xs generalizing k with
  | nil => simp [flattenBatchCases]
  | cons c cs ih =>
      simp only [List.cons_append, flattenBatchCases, List.append_eq, List.length_cons,
        Nat.cast_add, Nat.cast_one, ih (k + 1)]
      rw [show k + ((cs.length : ℤ) + 1) = k + 1 + (cs.length : ℤ) from by ring]

lemma flattenCasesGo_append (xs ys : List APISubmissionCaseOrBatch) (n : ℤ) :
    flattenCasesGo n (xs ++ ys)
      = flattenCasesGo n xs ++ flattenCasesGo (n + (xs.length : ℤ)) ys := by
  induction xs generalizing n with
  | nil => simp [flattenCasesGo]
  | cons u us ih =>
      cases u with
      | Case c =>
          simp only [List.cons_append, flattenCasesGo, List.append_eq, List.length_cons,
            Nat.cast_add, Nat.cast_one, ih (n + 1)]
          rw [show n + ((us.length : ℤ) + 1) = n + 1 + (us.length : ℤ) from by ring]
      | Batch b =>
          simp only [List.cons_append, flattenCasesGo, List.append_eq, List.length_cons,
            Nat.cast_add, Nat.cast_one, ih (n + 1), List.append_assoc]
          rw [show n + ((us.length : ℤ) + 1) = n + 1 + (us.length : ℤ) from by ring]

lemma flatten_prefix_helper (T Tx : List APISubmissionCaseOrBatch)
    (h : ExtendsTo T Tx) : flattenCases T <+: flattenCases Tx := by
  rcases h with ⟨added, rfl⟩ | ⟨pre, b, extra, added, rfl, rfl⟩
  · simp only [flattenCases, flattenCasesGo_append]
    exact List.prefix_append _ _
  · simp only [flattenCases, flattenCasesGo_append, flattenCasesGo,
      flattenBatchCases_append, List.append_nil]
    refine ⟨flattenBatchCases (1 + (b.cases.length : ℤ)) extra
      ++ flattenCasesGo (1 + (pre.length : ℤ) + 1) added, ?_⟩
    simp [List.append_assoc]

/-- C2: for every tree `T` and every tree `T'` obtained from `T` only by
additions (new top-level units appended, or new cases appended to an existing
trailing batch), `flattenCases T` is a prefix of `flattenCases T'`. -/
theorem flatten_monotonic_extension_prefix_law (T Tx : List APISubmissionCaseOrBatch)
    (h : ExtendsTo T Tx) : flattenCases T <+: flattenCases Tx :=
  flatten_prefix_helper T Tx h

theorem flatten_monotonic_extension_prefix_law_witness :
    ExtendsTo [Case sampleCaseAC] [Case sampleCaseAC, Batch sampleBatch]
      ∧ flattenCases [Case sampleCaseAC]
          <+: flattenCases [Case sampleCaseAC, Batch sampleBatch] :=
  ⟨Or.inl ⟨[Batch sampleBatch], rfl⟩,
    flatten_monotonic_extension_prefix_law _ _ (Or.inl ⟨[Batch sampleBatch], rfl⟩)⟩

/-- C3: flattening numbers top-level units with one shared 1-based counter
(top-level cases and batch headers alike) while a batch's children are
numbered 1-based within the batch and follow the header in order: the tree
`[Case, Batch(3 cases), Case]` yields ordinals `[1, 2, (1, 2, 3), 3]`, so the
final top-level case is numbered 3, not 5. -/
theorem flatten_numbering_shared_counter
    (c1 c2 d1 d2 d3 : APISubmissionCase) (ty : String) (bid : Int) (bp bt : ℚ) :
    flattenCases [Case c1, Batch ⟨ty, bid, [d1, d2, d3], bp, bt⟩, Case c2]
      = [⟨false, 1, Case c1⟩,
         ⟨false, 2, Batch ⟨ty, bid, [], bp, bt⟩⟩,
         ⟨true, 1, Case d1⟩, ⟨true, 2, Case d2⟩, ⟨true, 3, Case d3⟩,
         ⟨false, 3, Case c2⟩] := rfl

lemma extend_noop_helper (st : Progress) (input : List APISubmissionCaseOrBatch)
    (h : (flattenCases input).length = st.cases.length) :
    Progress.extend st input = some (st, []) := by
  simp [Progress.extend, ← h, List.drop_length]

/-- C1: starting from a fresh tracker, calling `extend` on `S1` and then on an
extension `S2` of `S1` prints, across both calls, exactly the rendered lines
of `flattenCases S2`, each display unit's line exactly once and in order; the
lines of the first call are never re-emitted or revised by the second. -/
theorem extend_no_reemission (S1 S2 : List APISubmissionCaseOrBatch)
    (h : ExtendsTo S1 S2) :
    ∃ st1 out1 st2 out2,
      Progress.extend Progress.new S1 = some (st1, out1) ∧
      Progress.extend st1 S2 = some (st2, out2) ∧
      out1 = (flattenCases S1).map FlattenedCasesItem.genMsg ∧
      out1 ++ out2 = (flattenCases S2).map FlattenedCasesItem.genMsg ∧
      out1.length + out2.length = (flattenCases S2).length := by
  obtain ⟨tail, htail⟩ := flatten_prefix_helper S1 S2 h
  have hlen : (flattenCases S1).length ≤ (flattenCases S2).length := by
    rw [← htail]; simp
  refine ⟨⟨flattenCases S1⟩, (flattenCases S1).map FlattenedCasesItem.genMsg,
    ⟨flattenCases S1 ++ (flattenCases S2).drop (flattenCases S1).length⟩,
    ((flattenCases S2).drop (flattenCases S1).length).map FlattenedCasesItem.genMsg,
    ?_, ?_, rfl, ?_, ?_⟩
  · simp [Progress.extend, Progress.new]
  · simp [Progress.extend, hlen]
  · rw [← htail, List.drop_left, ← List.map_append]
  · rw [← htail, List.drop_left]
    simp

theorem extend_no_reemission_witness :
    ExtendsTo [Case sampleCaseWA] [Case sampleCaseWA, Case sampleCaseSC]
      ∧ ∃ st1 out1 st2 out2,
          Progress.extend Progress.new [Case sampleCaseWA] = some (st1, out1) ∧
          Progress.extend st1 [Case sampleCaseWA, Case sampleCaseSC] = some (st2, out2) ∧
          out1 = (flattenCases [Case sampleCaseWA]).map FlattenedCasesItem.genMsg ∧
          out1 ++ out2
            = (flattenCases [Case sampleCaseWA, Case sampleCaseSC]).map
                FlattenedCasesItem.genMsg ∧
          out1.length + out2.length
            = (flattenCases [Case sampleCaseWA, Case sampleCaseSC]).length :=
  ⟨Or.inl ⟨[Case sampleCaseSC], rfl⟩,
    extend_no_reemission _ _ (Or.inl ⟨[Case sampleCaseSC], rfl⟩)⟩

/-- C4 counterexample: the claim fails for a snapshot whose flattened sequence
is strictly shorter than what was already emitted — `extend` is then not a
silent no-op but a `Vec::split_off` panic (modelled as `none`). -/
theorem extend_non_growth_noop_cex :
    (flattenCases ([] : List APISubmissionCaseOrBatch)).length
        ≤ (Progress.cases ⟨[⟨false, 1, Case sampleCaseAC⟩]⟩).length
      ∧ Progress.extend ⟨[⟨false, 1, Case sampleCaseAC⟩]⟩ [] = none := by
  constructor
  · decide
  · rfl

/-- C4 (amended): `extend` with a snapshot whose flattened sequence has
exactly the emitted length is a no-op (prints nothing, state unchanged); in
particular the second of two `extend` calls with the same snapshot prints
nothing. (A strictly shorter snapshot instead panics in `Vec::split_off`.) -/
theorem extend_noop_on_equal_length :
    (∀ (st : Progress) (input : List APISubmissionCaseOrBatch),
        (flattenCases input).length = st.cases.length →
        Progress.extend st input = some (st, [])) ∧
    (∀ (input : List APISubmissionCaseOrBatch) (st1 : Progress) (out1 : List String),
        Progress.extend Progress.new input = some (st1, out1) →
        Progress.extend st1 input = some (st1, [])) := by
  constructor
  · exact extend_noop_helper
  · intro input st1 out1 hext
    have hst : st1 = ⟨flattenCases input⟩ := by
      simp only [Progress.extend, Progress.new, List.length_nil, Nat.zero_le, if_pos,
        List.drop_zero, List.nil_append, Option.some.injEq, Prod.mk.injEq] at hext
      exact hext.1.symm
    subst hst
    exact extend_noop_helper _ _ (by simp)

theorem extend_noop_on_equal_length_witness :
    (flattenCases [Case sampleCaseSC]).length
        = (Progress.cases ⟨[⟨false, 1, Case sampleCaseSC⟩]⟩).length
      ∧ Progress.extend ⟨[⟨false, 1, Case sampleCaseSC⟩]⟩ [Case sampleCaseSC]
          = some (⟨[⟨false, 1, Case sampleCaseSC⟩]⟩, [])
      ∧ Progress.extend Progress.new [Case sampleCaseSC]
          = some (⟨[⟨false, 1, Case sampleCaseSC⟩]⟩,
              [FlattenedCasesItem.genMsg ⟨false, 1, Case sampleCaseSC⟩])
      ∧ Progress.extend ⟨[⟨false, 1, Case sampleCaseSC⟩]⟩ [Case sampleCaseSC]
          = some (⟨[⟨false, 1, Case sampleCaseSC⟩]⟩, []) :=
  ⟨by decide,
    extend_noop_on_equal_length.1 ⟨[⟨false, 1, Case sampleCaseSC⟩]⟩ [Case sampleCaseSC]
      (by decide),
    rfl,
    extend_noop_on_equal_length.2 [Case sampleCaseSC] ⟨[⟨false, 1, Case sampleCaseSC⟩]⟩
      [FlattenedCasesItem.genMsg ⟨false, 1, Case sampleCaseSC⟩] rfl⟩

/-- C5 counterexample: a top-level (unbatched) `SC` case renders the dash
placeholder but, contrary to the claim, still carries the `(points/total)`
suffix — here `(0/1)`. -/
theorem sc_case_no_suffix_cex :
    FlattenedCasesItem.genMsg ⟨false, 7, Case sampleCaseSC⟩
        = "\x1b[1mTest case #7:  \x1b[0m \x1b[30m—\x1b[0m (0/1)"
      ∧ strContains "\x1b[1mTest case #7:  \x1b[0m \x1b[30m—\x1b[0m (0/1)" "(0/1)" = true := by
  decide

/-- C5 (amended): every `SC` case renders a dash placeholder and no
time/memory suffix; a batched `SC` case has no points suffix either, but a
top-level `SC` case still appends the `(points/total)` suffix. -/
theorem sc_case_rendering_amended (n : Int) (ty : String) (cid : Int) (t m p tot : ℚ) :
    FlattenedCasesItem.genMsg ⟨true, n, Case ⟨ty, cid, "SC", t, m, p, tot⟩⟩
        = (style ("  Case " ++ padRightSpaces 5 ("#" ++ toString n ++ ":"))).render ++ " "
            ++ ((style "—").black).render
      ∧ FlattenedCasesItem.genMsg ⟨false, n, Case ⟨ty, cid, "SC", t, m, p, tot⟩⟩
        = ((style ("Test case " ++ padRightSpaces 5 ("#" ++ toString n ++ ":"))).bold).render
            ++ " " ++ ((style "—").black).render ++ " "
            ++ ("(" ++ fmtFixed 0 p ++ "/" ++ fmtFixed 0 tot ++ ")") :=
  ⟨rfl, rfl⟩

lemma sample_ac_msg :
    FlattenedCasesItem.genMsg ⟨false, 1, Case sampleCaseAC⟩
      = "\x1b[1mTest case #1:  \x1b[0m \x1b[32mAC\x1b[0m [0.100s, 2.00 MB] (1/1)" := by
  simp only [FlattenedCasesItem.genMsg, Rat.div_def']
  decide

lemma sample_batch_header_msg :
    FlattenedCasesItem.genMsg ⟨false, 1, Batch ⟨"batch", 1, [], 0, 10⟩⟩
      = "\x1b[1mBatch #1\x1b[0m (?/10 points)" := by
  decide

lemma sample_batch_child1_msg :
    FlattenedCasesItem.genMsg ⟨true, 1, Case sampleCaseAC⟩
      = "  Case #1:   \x1b[32mAC\x1b[0m [0.100s, 2.00 MB]" := by
  simp only [FlattenedCasesItem.genMsg, Rat.div_def']
  decide

lemma sample_batch_child2_msg :
    FlattenedCasesItem.genMsg ⟨true, 2, Case sampleCaseWA⟩
      = "  Case #2:   \x1b[91mWA\x1b[0m [0.050s, 1.00 MB]" := by
  simp only [FlattenedCasesItem.genMsg, Rat.div_def']
  decide

/-- C6: for the tree `[Case{status:"AC", points:1, total:1, time:0.1,
memory:2048}]` exactly one line is printed; it carries the green
(success-styled) `AC` marker, the `[0.100s, 2.00 MB]` suffix (time to three
decimals, memory divided by 1024 and shown to two decimals) and `(1/1)`. -/
theorem single_ac_case_scenario :
    Progress.extend Progress.new [Case sampleCaseAC]
        = some (⟨[⟨false, 1, Case sampleCaseAC⟩]⟩,
            ["\x1b[1mTest case #1:  \x1b[0m \x1b[32mAC\x1b[0m [0.100s, 2.00 MB] (1/1)"])
      ∧ strContains "\x1b[1mTest case #1:  \x1b[0m \x1b[32mAC\x1b[0m [0.100s, 2.00 MB] (1/1)"
          (((style "AC").green).render) = true
      ∧ strContains "\x1b[1mTest case #1:  \x1b[0m \x1b[32mAC\x1b[0m [0.100s, 2.00 MB] (1/1)"
          "[0.100s, 2.00 MB]" = true
      ∧ strContains "\x1b[1mTest case #1:  \x1b[0m \x1b[32mAC\x1b[0m [0.100s, 2.00 MB] (1/1)"
          "(1/1)" = true := by
  refine ⟨?_, by decide, by decide, by decide⟩
  have h1 : Progress.extend Progress.new [Case sampleCaseAC]
      = some (⟨[⟨false, 1, Case sampleCaseAC⟩]⟩,
          [FlattenedCasesItem.genMsg ⟨false, 1, Case sampleCaseAC⟩]) := rfl
  rw [h1, sample_ac_msg]

/-- C7: for the tree `[Batch{total:10, cases:[AC 1/1, WA 0/1]}]` the output is
the batch header with `(?/10 points)` followed by two indented child lines
with within-batch ordinals 1 and 2, the second failure-styled (bright red),
neither child carrying a points suffix; a batch with zero cases flattens to
just its header unit. -/
theorem batch_scenario_lines :
    Progress.extend Progress.new [Batch sampleBatch]
        = some (⟨flattenCases [Batch sampleBatch]⟩,
            ["\x1b[1mBatch #1\x1b[0m (?/10 points)",
             "  Case #1:   \x1b[32mAC\x1b[0m [0.100s, 2.00 MB]",
             "  Case #2:   \x1b[91mWA\x1b[0m [0.050s, 1.00 MB]"])
      ∧ strContains "\x1b[1mBatch #1\x1b[0m (?/10 points)" "(?/10 points)" = true
      ∧ strContains "  Case #1:   \x1b[32mAC\x1b[0m [0.100s, 2.00 MB]" "  Case #1:" = true
      ∧ strContains "  Case #2:   \x1b[91mWA\x1b[0m [0.050s, 1.00 MB]" "  Case #2:" = true
      ∧ strContains "  Case #2:   \x1b[91mWA\x1b[0m [0.050s, 1.00 MB]"
          ((((style "WA").red).bright).render) = true
      ∧ strContains "  Case #1:   \x1b[32mAC\x1b[0m [0.100s, 2.00 MB]" "(1/1)" = false
      ∧ strContains "  Case #2:   \x1b[91mWA\x1b[0m [0.050s, 1.00 MB]" "(0/1)" = false
      ∧ ∀ (ty : String) (bid : Int) (bp bt : ℚ),
          flattenCases [Batch ⟨ty, bid, [], bp, bt⟩]
            = [⟨false, 1, Batch ⟨ty, bid, [], bp, bt⟩⟩] := by
  refine ⟨?_, by decide, by decide, by decide, by decide, by decide, by decide,
    fun ty bid bp bt => rfl⟩
  have h1 : Progress.extend Progress.new [Batch sampleBatch]
      = some (⟨flattenCases [Batch sampleBatch]⟩,
          [FlattenedCasesItem.genMsg ⟨false, 1, Batch ⟨"batch", 1, [], 0, 10⟩⟩,
           FlattenedCasesItem.genMsg ⟨true, 1, Case sampleCaseAC⟩,
           FlattenedCasesItem.genMsg ⟨true, 2, Case sampleCaseWA⟩]) := rfl
  rw [h1, sample_batch_header_msg, sample_batch_child1_msg, sample_batch_child2_msg]

/-- C8 counterexample: a batch header's ordinal is not padded at all (the
reset escape follows `#1` immediately, not even one space), while a top-level
case's ordinal token `#1:` is padded to width 5 — so there is no common fixed
width shared by both kinds of unit. -/
theorem ordinal_padding_cex :
    FlattenedCasesItem.genMsg ⟨false, 1, Batch ⟨"batch", 1, [], 0, 10⟩⟩
        = "\x1b[1mBatch #1\x1b[0m (?/10 points)"
      ∧ strContains "\x1b[1mBatch #1\x1b[0m (?/10 points)" "#1 " = false
      ∧ FlattenedCasesItem.genMsg ⟨false, 1, Case sampleCaseSC⟩
          = "\x1b[1mTest case #1:  \x1b[0m \x1b[30m—\x1b[0m (0/1)"
      ∧ strContains "\x1b[1mTest case #1:  \x1b[0m \x1b[30m—\x1b[0m (0/1)" "#1:  " = true := by
  decide

/-- C8 (amended): a top-level case line starts with the bold `Test case`
label whose `#<ordinal>:` token is right-padded with spaces to width 5, while
a batch header line starts with the bold, unpadded `Batch #<ordinal>`. -/
theorem ordinal_padding_amended (n : Int) (c : APISubmissionCase) (b : APISubmissionBatch) :
    (∃ rest, FlattenedCasesItem.genMsg ⟨false, n, Case c⟩
        = ((style ("Test case " ++ padRightSpaces 5 ("#" ++ toString n ++ ":"))).bold).render
            ++ (" " ++ rest))
      ∧ FlattenedCasesItem.genMsg ⟨false, n, Batch b⟩
        = ((style ("Batch #" ++ toString n)).bold).render ++ " "
            ++ ("(?/" ++ fmtFixed 0 b.total ++ " points)") := by
  constructor
  · by_cases h : c.status = "SC"
    · refine ⟨(statusStyle c).render ++ (" "
          ++ ("(" ++ fmtFixed 0 c.points ++ "/" ++ fmtFixed 0 c.total ++ ")")), ?_⟩
      simp only [FlattenedCasesItem.genMsg]
      rw [if_neg (not_not_intro h)]
      simp only [String.append_assoc]
      rfl
    · refine ⟨(statusStyle c).render ++ (" "
          ++ ("[" ++ fmtFixed 3 c.time ++ "s, " ++ fmtFixed 2 (c.memory / 1024) ++ " MB]")
          ++ (" " ++ ("(" ++ fmtFixed 0 c.points ++ "/" ++ fmtFixed 0 c.total ++ ")"))), ?_⟩
      simp only [FlattenedCasesItem.genMsg]
      rw [if_pos h]
      simp only [String.append_assoc]
      rfl
  · rfl

/-- C9: rendering a case whose status code is none of AC, WA, TLE, SC, MLE,
OLE, RTE, IR does not fail: the returned line contains the unrecognized code
verbatim (only a diagnostic is logged, which carries no data). -/
theorem unrecognized_status_verbatim (bc : Bool) (n : Int) (c : APISubmissionCase)
    (h : c.status ∉ (["AC", "WA", "TLE", "SC", "MLE", "OLE", "RTE", "IR"] : List String)) :
    ∃ pre post, FlattenedCasesItem.genMsg ⟨bc, n, Case c⟩ = pre ++ (c.status ++ post) := by
  simp only [List.mem_cons, List.not_mem_nil, or_false, not_or] at h
  obtain ⟨h1, h2, h3, h4, h5, h6, h7, h8⟩ := h
  have hstyle : statusStyle c = style c.status := by
    rw [statusStyle, if_neg h1, if_neg h2, if_neg h3, if_neg h4,
      if_neg (by simp [h5, h6, h7, h8])]
  cases bc with
  | false =>
      refine ⟨((style ("Test case " ++ padRightSpaces 5 ("#" ++ toString n ++ ":"))).bold).render
          ++ " ",
        " " ++ ("[" ++ fmtFixed 3 c.time ++ "s, " ++ fmtFixed 2 (c.memory / 1024) ++ " MB]")
          ++ (" " ++ ("(" ++ fmtFixed 0 c.points ++ "/" ++ fmtFixed 0 c.total ++ ")")), ?_⟩
      simp only [FlattenedCasesItem.genMsg]
      rw [if_pos h4, hstyle]
      simp only [String.append_assoc]
      rfl
  | true =>
      refine ⟨(style ("  Case " ++ padRightSpaces 5 ("#" ++ toString n ++ ":"))).render ++ " ",
        " " ++ ("[" ++ fmtFixed 3 c.time ++ "s, " ++ fmtFixed 2 (c.memory / 1024) ++ " MB]"),
        ?_⟩
      simp only [FlattenedCasesItem.genMsg]
      rw [if_pos h4, hstyle]
      simp only [String.append_assoc]
      rfl

theorem unrecognized_status_verbatim_witness :
    "QQ" ∉ (["AC", "WA", "TLE", "SC", "MLE", "OLE", "RTE", "IR"] : List String)
      ∧ ∃ pre post,
          FlattenedCasesItem.genMsg ⟨false, 4, Case ⟨"case", 9, "QQ", 0, 0, 0, 1⟩⟩
            = pre ++ ("QQ" ++ post) :=
  ⟨by decide,
    unrecognized_status_verbatim false 4 ⟨"case", 9, "QQ", 0, 0, 0, 1⟩ (by decide)⟩

/-- C10: for a scoring terminal result (not IE, CE or AB), the outcome
summary is defined exactly when the snapshot's optional `memory` field is
present and, unless the result is TLE, its optional `time` field is present
as well; otherwise the `Option::unwrap` calls panic (modelled as `none`). -/
theorem outcome_summary_unwrap_condition (result : String) (time memory : Option ℚ)
    (cp ct : ℚ) (h : result ∉ (["IE", "CE", "AB"] : List String)) :
    (printOutcomeSummary result time memory cp ct).isSome = true
      ↔ (memory.isSome = true ∧ (result = "TLE" ∨ time.isSome = true)) := by
  simp only [List.mem_cons, List.not_mem_nil, or_false, not_or] at h
  obtain ⟨h1, h2, h3⟩ := h
  simp only [printOutcomeSummary, if_neg h1, if_neg h2, if_neg h3]
  by_cases hT : result = "TLE"
  · rw [if_pos hT]
    cases memory <;> simp [hT]
  · rw [if_neg hT]
    cases time <;> cases memory <;> simp [hT]

theorem outcome_summary_unwrap_condition_witness :
    ("AC" ∉ (["IE", "CE", "AB"] : List String)
      ∧ ((printOutcomeSummary "AC" (some 1) (some 2048) 1 1).isSome = true
          ↔ ((some (2048 : ℚ)).isSome = true
              ∧ ("AC" = "TLE" ∨ (some (1 : ℚ)).isSome = true)))) :=
  ⟨by decide,
    outcome_summary_unwrap_condition "AC" (some 1) (some 2048) 1 1 (by decide)⟩
